import Mathlib

/-!
# Verification of the agri-suite irrigation advisory core

Shallow embedding of the computational core of the agri-suite repository:

* `backend/app/routes_irrigation.py` — ring closure, centroid/area geometry,
  weather/ET0 estimation, satellite soil moisture, irrigation recommendation;
* `app/main.py` — the deficit-over-period advice endpoint (`get_advice`);
* `app/sat.py` — scene selection and spectral index computation.

Python floats are modelled as exact rationals (`ℚ`) where the code is pure
arithmetic, and as real numbers (`ℝ`) where the code uses transcendental
functions (`math.cos`, `math.radians`).  Python's `round(x, 1)` is modelled
as round-half-to-even on `ℚ` at one decimal.  Fallible I/O is modelled with
`Except`/`Option` values standing for the response of the external
collaborator (forecast API, soil-moisture API, STAC catalog).
-/

namespace Agri

/-! ## Rounding and string helpers -/

/-- Round-half-to-even to the nearest integer, the tie-breaking rule of
Python's built-in `round`. -/
def roundHalfEven (x : ℚ) : ℤ :=
  let f := ⌊x⌋
  if x - f < 1/2 then f
  else if 1/2 < x - f then f + 1
  else if f % 2 = 0 then f else f + 1

/-- Python's `round(x, 1)`: round to one decimal place. -/
def round1 (x : ℚ) : ℚ := (roundHalfEven (10 * x) : ℤ) / 10

/-- Whitespace test for the characters stripped by Python's `str.strip()`. -/
def wsChar (c : Char) : Bool :=
  c = ' ' || c = '\t' || c = '\n' || c = '\r' || c = '\x0b' || c = '\x0c'

/-- Python's `str.lower()` (character-wise ASCII lowering). -/
def strToLower (s : String) : String := String.mk (s.data.map Char.toLower)

/-- Python's `str.strip()`: drop leading and trailing whitespace. -/
def strTrim (s : String) : String :=
  String.mk (((s.data.dropWhile wsChar).reverse.dropWhile wsChar).reverse)

/-- Python's `"{:.1f}".format(q)` for a non-negative rational rounded to one
decimal: the rounded value printed with exactly one digit after the dot. -/
def fmt1 (q : ℚ) : String :=
  toString (roundHalfEven (10 * q) / 10) ++ "." ++ toString (roundHalfEven (10 * q) % 10)

/-- Substring containment (`pat in s` for Python strings). -/
def strContains (s pat : String) : Prop := pat.data <:+: s.data

/-! ## `compute_irrigation_mm` (backend/app/routes_irrigation.py, lines 113-125) -/

/-- Embeds `compute_irrigation_mm(crop, temp_c, et0_mm, rain_mm, soil)`:
crop-coefficient lookup on the lowered and stripped crop name, target
`max(0, kc * et0_mm - rain_mm)`, soil-moisture scaling (×0.6 at ≥40 %,
×0.8 at ≥30 %, skipped when `soil is None`), rounded to one decimal.
The `temp_c` argument is unused, exactly as in the source. -/
def compute_irrigation_mm (crop : Option String) (temp_c et0_mm rain_mm : ℚ)
    (soil : Option ℚ) : ℚ :=
  let c := strTrim (strToLower (crop.getD ""))
  let kc : ℚ :=
    if c = "rice" ∨ c = "paddy" then 1.1
    else if c = "chickpea" ∨ c = "gram" then 0.6
    else if c = "maize" ∨ c = "corn" then 0.9
    else if c = "cotton" then 1.0
    else 0.7
  let target := max 0 (kc * et0_mm - rain_mm)
  let scaled :=
    match soil with
    | none => target
    | some s => if s ≥ 40 then target * 0.6 else if s ≥ 30 then target * 0.8 else target
  let _ := temp_c
  round1 scaled

/-- The crop-coefficient table exactly as the specification states it:
case-insensitive, whitespace-trimmed crop name; rice/paddy 1.1,
chickpea/gram 0.6, maize/corn 0.9, cotton 1.0, default 0.7. -/
def claim_kc (crop : Option String) : ℚ :=
  let c := strTrim (strToLower (crop.getD ""))
  if c = "rice" ∨ c = "paddy" then 1.1
  else if c = "chickpea" ∨ c = "gram" then 0.6
  else if c = "maize" ∨ c = "corn" then 0.9
  else if c = "cotton" then 1.0
  else 0.7

/-- The soil-moisture sufficiency factor as the specification states it:
0.6 when ≥ 40, 0.8 when 30 ≤ s < 40, 1 otherwise, 1 when absent. -/
def claim_soil_factor (soil : Option ℚ) : ℚ :=
  match soil with
  | none => 1
  | some s => if s ≥ 40 then 0.6 else if s ≥ 30 then 0.8 else 1

/-! ## Deficit-over-period advice (`get_advice`, app/main.py lines 180-224) -/

/-- The tier of the advice message, as named by the specification; the code
realises the tiers as the three `if` branches on `net_deficit`. -/
inductive AdviceTier where
  | Normal : AdviceTier
  | Drying : AdviceTier
  | Critical : AdviceTier
deriving DecidableEq

/-- Embeds the deficit computation of `get_advice`: `kc = 0.9` (a fixed
constant in the code, independent of the crop), `daily_use = et0 * kc`,
`net_deficit = max(0.0, daily_use * delta_days - rain_mm)`.  `et0` and
`rain_mm` are the local variables feeding the formula (in the current code
they are placeholder constants; the formula itself is what matters here). -/
def advice_net_deficit (et0 rain_mm : ℚ) (delta_days : ℕ) : ℚ :=
  let kc : ℚ := 0.9
  let daily_use := et0 * kc
  max 0 (daily_use * delta_days - rain_mm)

/-- The branch taken by `get_advice` on a given deficit. -/
def advice_tier (d : ℚ) : AdviceTier :=
  if d < 10 then .Normal else if d < 25 then .Drying else .Critical

/-- The (English, Urdu) message pair built by `get_advice` for a given
deficit, with `{net_deficit:.1f}` interpolation modelled by `fmt1`. -/
def advice_messages (d : ℚ) : String × String :=
  if d < 10 then
    ("Conditions are normal. Monitor the next forecast.",
     "صورتحال معمول کی ہے۔ اگلی موسمی پیشن گوئی پر نظر رکھیں۔")
  else if d < 25 then
    ("Field is drying (deficit ≈ " ++ fmt1 d ++ " mm). Plan irrigation within 1–2 days.",
     "کھیت میں نمی کم ہو رہی ہے (کمی تقریباً " ++ fmt1 d ++ " ملی میٹر)۔ ۱–۲ دن میں آبپاشی کیجئے۔")
  else
    ("Deficit high (≈ " ++ fmt1 d ++ " mm). Irrigate now if field is available.",
     "کمی زیادہ ہے (تقریباً " ++ fmt1 d ++ " ملی میٹر)۔ اگر ممکن ہو تو فوراً آبپاشی کریں۔")

/-! ## Geometry (`_close_ring`, `_centroid_and_area`,
backend/app/routes_irrigation.py lines 39-71)

The geometry uses `math.cos`/`math.radians`, so it is embedded over `ℝ`
with `Real.cos`; vertices are `(lon, lat)` pairs as in the source. -/

/-- Embeds `_close_ring`: append a copy of the first vertex when the first
and last vertices differ; otherwise (including the empty list) return the
input unchanged. -/
def close_ring (coords : List (ℚ × ℚ)) : List (ℚ × ℚ) :=
  match coords.head?, coords.getLast? with
  | some h, some l => if h ≠ l then coords ++ [h] else coords
  | _, _ => coords

/-- `lat0`: unweighted mean latitude of the vertices. -/
noncomputable def latOrigin (positions : List (ℝ × ℝ)) : ℝ :=
  (positions.map Prod.snd).sum / positions.length

/-- `lon0`: unweighted mean longitude of the vertices. -/
noncomputable def lonOrigin (positions : List (ℝ × ℝ)) : ℝ :=
  (positions.map Prod.fst).sum / positions.length

/-- `m_per_deg_lat = 111_132.0`. -/
noncomputable def mPerDegLat : ℝ := 111132

/-- `m_per_deg_lon = 111_320.0 * math.cos(math.radians(lat0))`. -/
noncomputable def mPerDegLon (lat0 : ℝ) : ℝ := 111320 * Real.cos (lat0 * (Real.pi / 180))

/-- The local-meter projection of the vertex list around its mean origin
(the `xy` list of `_centroid_and_area`). -/
noncomputable def xyOf (positions : List (ℝ × ℝ)) : List (ℝ × ℝ) :=
  positions.map fun p =>
    ((p.1 - lonOrigin positions) * mPerDegLon (latOrigin positions),
     (p.2 - latOrigin positions) * mPerDegLat)

/-- One shoelace cross term `x1 * y2 - x2 * y1`. -/
noncomputable def crossP (p q : ℝ × ℝ) : ℝ := p.1 * q.2 - q.1 * p.2

/-- The accumulator `A2`: the signed shoelace sum over consecutive vertex
pairs (`for i in range(len(xy) - 1)`). -/
noncomputable def shoelaceA2 : List (ℝ × ℝ) → ℝ
  | [] => 0
  | [_] => 0
  | p :: q :: rest => crossP p q + shoelaceA2 (q :: rest)

/-- The accumulator `Cx`: sum of `(x1 + x2) * cross` over consecutive pairs. -/
noncomputable def shoelaceCx : List (ℝ × ℝ) → ℝ
  | [] => 0
  | [_] => 0
  | p :: q :: rest => (p.1 + q.1) * crossP p q + shoelaceCx (q :: rest)

/-- The accumulator `Cy`: sum of `(y1 + y2) * cross` over consecutive pairs. -/
noncomputable def shoelaceCy : List (ℝ × ℝ) → ℝ
  | [] => 0
  | [_] => 0
  | p :: q :: rest => (p.2 + q.2) * crossP p q + shoelaceCy (q :: rest)

/-- Embeds `_centroid_and_area(positions)`: projection to local meters,
signed shoelace centroid/area, centroid mapped back with the same scale
factors, returning `(centroid_lat, centroid_lon, area_ha, area_ac)`.
When the accumulator `A2` is zero the centroid offsets default to `0.0`
(`cx = Cx / (3 * A2) if A2 != 0 else 0.0`). -/
noncomputable def centroid_and_area (positions : List (ℝ × ℝ)) : ℝ × ℝ × ℝ × ℝ :=
  let lat0 := latOrigin positions
  let lon0 := lonOrigin positions
  let xy := xyOf positions
  let A2 := shoelaceA2 xy
  let A := |A2| / 2
  let cx := if A2 ≠ 0 then shoelaceCx xy / (3 * A2) else 0
  let cy := if A2 ≠ 0 then shoelaceCy xy / (3 * A2) else 0
  (lat0 + cy / mPerDegLat, lon0 + cx / mPerDegLon lat0, A / 10000, A / 4046.8564224)

/-- The computation as the specification words it, step by step: unweighted
mean origin; vertices to local meters with scale factors `111132` and
`111320·cos(origin latitude in radians)`; the signed shoelace centroid/area
formula over consecutive vertex pairs; the centroid mapped back with the
same factors; `area_ha = |signed area in m²| / 10000` and
`area_ac = |signed area in m²| / 4046.8564224`. -/
noncomputable def centroid_and_area_claim (positions : List (ℝ × ℝ)) : ℝ × ℝ × ℝ × ℝ :=
  let lat0 := (positions.map Prod.snd).sum / positions.length
  let lon0 := (positions.map Prod.fst).sum / positions.length
  let mLat : ℝ := 111132
  let mLon : ℝ := 111320 * Real.cos (lat0 * (Real.pi / 180))
  let xy := positions.map fun p => ((p.1 - lon0) * mLon, (p.2 - lat0) * mLat)
  let signedArea := shoelaceA2 xy / 2
  let cx := if shoelaceA2 xy ≠ 0 then shoelaceCx xy / (3 * shoelaceA2 xy) else 0
  let cy := if shoelaceA2 xy ≠ 0 then shoelaceCy xy / (3 * shoelaceA2 xy) else 0
  (lat0 + cy / mLat, lon0 + cx / mLon, |signedArea| / 10000, |signedArea| / 4046.8564224)

/-! ## Spectral indices (`compute_indices`, app/sat.py lines 50-91)

A pixel carries the three band values (each `none` when masked out by the
raster accessor's nodata mask, `some v` when finite) and its
scene-classification class.  Cloud masking sets the bands of a pixel whose
class is in `SCL_MASK` to invalid (`none`), then the per-pixel indices are
aggregated by `np.nanmean` over the valid values only. -/

/-- `SCL_MASK = {3, 8, 9, 10}`: cloud shadow, medium/high-probability
cloud, high-probability cloud, cirrus. -/
def SCL_MASK : List ℕ := [3, 8, 9, 10]

/-- One pixel of the clipped AOI: band values (invalid = `none`) and the
scene-classification class. -/
structure Px where
  red : Option ℚ
  nir : Option ℚ
  swir : Option ℚ
  scl : ℕ

/-- `red[cloud_mask] = np.nan` etc.: pixels of a masked class get all three
bands invalidated; other pixels are untouched. -/
def maskClouds (p : Px) : Px :=
  if p.scl ∈ SCL_MASK then { p with red := none, nir := none, swir := none } else p

/-- Per-pixel NDVI `(nir - red) / (nir + red + 1e-6)`; invalid when either
band is invalid (NaN propagates in the source). -/
def ndviPx (p : Px) : Option ℚ :=
  match p.nir, p.red with
  | some n, some r => some ((n - r) / (n + r + 1/1000000))
  | _, _ => none

/-- Per-pixel moisture index (NDMI) `(nir - swir) / (nir + swir + 1e-6)`. -/
def ndwiPx (p : Px) : Option ℚ :=
  match p.nir, p.swir with
  | some n, some s => some ((n - s) / (n + s + 1/1000000))
  | _, _ => none

/-- `_nanmean`: the arithmetic mean of the valid values, `none` when there
is no valid value (`np.nanmean` of an all-NaN array is NaN, mapped to
`None` by the `np.isfinite` guard). -/
def nanmean (l : List (Option ℚ)) : Option ℚ :=
  let v := l.filterMap id
  if v.length = 0 then none else some (v.sum / v.length)

/-- Embeds the index aggregation of `compute_indices`: mask the cloudy
pixels, compute both indices per pixel, aggregate each with `_nanmean`.
(The scene's cloud-cover percentage and id are passed through from the
catalog item in the source and carry no computation.) -/
def compute_indices (img : List Px) : Option ℚ × Option ℚ :=
  let m := img.map maskClouds
  (nanmean (m.map ndviPx), nanmean (m.map ndwiPx))

/-- The valid values of an index as the specification describes them: the
per-pixel values of the non-cloud-masked pixels whose bands are valid. -/
def validPixelValues (f : Px → Option ℚ) (img : List Px) : List ℚ :=
  (img.filter fun p => decide (p.scl ∉ SCL_MASK)).filterMap f

/-- The specification's aggregation: arithmetic mean over valid pixels
only, `none` when no valid pixel remains. -/
def meanOfValid (f : Px → Option ℚ) (img : List Px) : Option ℚ :=
  let v := validPixelValues f img
  if v.length = 0 then none else some (v.sum / v.length)

/-! ## Weather / ET0 (`fetch_weather_et0`,
backend/app/routes_irrigation.py lines 73-89)

A forecast step is a `(temperature, rainfall)` pair; the HTTP layer is
modelled by an `Except` value: `.error` when the key is unset, the source
is unreachable or `raise_for_status()` fires, `.ok steps` otherwise. -/

/-- The pure aggregation of `fetch_weather_et0` once a response body is in
hand: first 8 steps, mean temperature rounded to one decimal (default 30.0
when no steps), rainfall summed, ET0 proxy computed from the *rounded*
mean.  Returns `(temp_c, rainfall_forecast_mm, et0_mm)`. -/
def weather_from_steps (steps : List (ℚ × ℚ)) : ℚ × ℚ × ℚ :=
  let s8 := steps.take 8
  let temps := s8.map Prod.fst
  let rain := (s8.map Prod.snd).sum
  let temp_c := if temps.length ≠ 0 then round1 (temps.sum / temps.length) else 30
  let et0_mm := round1 (max 0 (0.0023 * (temp_c + 17.8)) * 24)
  (temp_c, round1 rain, et0_mm)

/-- Embeds `fetch_weather_et0` including its failure paths: an unset
`OPENWEATHER_KEY` raises (HTTPException 500); an unreachable source or an
HTTP error status raises (`raise_for_status`); only a successful response
reaches the aggregation. -/
def fetch_weather_et0 (key_set : Bool) (resp : Except Unit (List (ℚ × ℚ))) :
    Except Unit (ℚ × ℚ × ℚ) :=
  if key_set = false then .error ()
  else
    match resp with
    | .error e => .error e
    | .ok steps => .ok (weather_from_steps steps)

/-! ## Scene selection (`select_item`, app/sat.py lines 35-48) -/

/-- One catalog item: acquisition date (as an ordinal), whole-scene cloud
cover, whether its footprint intersects the queried polygon, and its id. -/
structure SceneItem where
  dt : ℤ
  cloud : ℚ
  inFootprint : Bool
  sid : String
deriving DecidableEq

/-- The filter predicate of the catalog query: footprint intersects the
polygon, acquisition date in `[today - days_back, today]`, cloud cover
strictly below `max_cloud_pct`. -/
def scenePasses (today daysBack : ℤ) (maxCloud : ℚ) (it : SceneItem) : Prop :=
  it.inFootprint = true ∧ today - daysBack ≤ it.dt ∧ it.dt ≤ today ∧ it.cloud < maxCloud

/-- Boolean form of `scenePasses`. -/
def scenePassesB (today daysBack : ℤ) (maxCloud : ℚ) (it : SceneItem) : Bool :=
  it.inFootprint && decide (today - daysBack ≤ it.dt) && decide (it.dt ≤ today)
    && decide (it.cloud < maxCloud)

/-- Sort key of the query: acquisition date descending
(`sort=[{"field": "properties.datetime", "direction": "desc"}]`). -/
def byDateDesc (a b : SceneItem) : Prop := b.dt ≤ a.dt

instance : DecidableRel byDateDesc := fun a b => (inferInstance : Decidable (b.dt ≤ a.dt))

instance : IsTotal SceneItem byDateDesc := ⟨fun a b => le_total b.dt a.dt⟩

instance : IsTrans SceneItem byDateDesc := ⟨fun _ _ _ h1 h2 => le_trans h2 h1⟩

/-- Modelled from the spec: the external STAC catalog collaborator
(`pystac_client.Client.search`).  The repository only issues the query;
per the specification's collaborator contract the catalog returns the
items of the collection whose footprint intersects the polygon, whose
acquisition date falls within the requested range and whose cloud cover
satisfies `eo:cloud_cover < max_cloud_pct`, sorted by acquisition date
descending and truncated to `limit`. -/
def catalogSearch (pool : List SceneItem) (today daysBack : ℤ) (maxCloud : ℚ)
    (lim : ℕ) : List SceneItem :=
  ((pool.filter (scenePassesB today daysBack maxCloud)).insertionSort byDateDesc).take lim

/-- Embeds `select_item`: run the catalog query with `limit=5` and return
`items[0] if items else None`.  `pool` is the catalog's item universe. -/
def select_item (pool : List SceneItem) (today daysBack : ℤ) (maxCloud : ℚ) :
    Option SceneItem :=
  (catalogSearch pool today daysBack maxCloud 5).head?

/-! ## Satellite soil moisture (`fetch_satellite_soil_moisture`,
backend/app/routes_irrigation.py lines 91-111)

The response is modelled as `.error` for any transport-level exception and
`.ok (status, vals)` for an HTTP response with the parsed
`SOILM_TOT` dictionary as key/value pairs; any parse failure inside the
`try` block (missing keys, empty dictionary) is caught by the bare
`except` and yields `None`, which the embedding mirrors with its `none`
branches. -/

/-- Embeds `fetch_satellite_soil_moisture`: non-200 status → `None`;
`day_key = sorted(vals.keys())[-1]`; `sm_pct = round(sm_kg_m2 / 10.0, 1)`;
out-of-range (`< 0` or `> 60`) → `None`; any exception → `None`. -/
def fetch_satellite_soil_moisture (resp : Except Unit (ℕ × List (String × ℚ))) :
    Option ℚ :=
  match resp with
  | .error _ => none
  | .ok (status, vals) =>
    if status ≠ 200 then none
    else
      match (List.insertionSort (fun a b : String => a ≤ b) (vals.map Prod.fst)).getLast? with
      | none => none
      | some dayKey =>
        match vals.lookup dayKey with
        | none => none
        | some smKgM2 =>
          let smPct := round1 (smKgM2 / 10)
          if smPct < 0 ∨ smPct > 60 then none else some smPct

/-! ## Helper lemmas -/

/-- A string concatenated between two others is contained in the result. -/
theorem strContains_mid (a b c : String) : strContains (a ++ b ++ c) b :=
  ⟨a.data, c.data, by simp [strContains, String.data_append]⟩

/-- `fmt1` prints `21.5` as `"21.5"`. -/
theorem fmt1_21_5 : fmt1 (21.5 : ℚ) = "21.5" := by
  have h : roundHalfEven (10 * (21.5 : ℚ)) = 215 := by norm_num [roundHalfEven]
  unfold fmt1
  rw [h]
  rfl

/-! ## C1: `compute_irrigation_mm` -/

/-- C1.  For every crop name, `et0_mm`, `rain_mm` and optional soil
moisture, `compute_irrigation_mm` returns
`round(s * max(0, kc * et0_mm - rain_mm), 1)` with `kc` from the fixed
crop-coefficient table (default 0.7) and `s` the soil-sufficiency factor
(0.6 at ≥ 40, 0.8 at 30–40, 1 otherwise or when absent); in particular
crop `"rice"`, `et0 = 5`, `rain = 0`, `soil = 45` yields `3.3`. -/
theorem compute_irrigation_matches_claim :
    (∀ (crop : Option String) (t et0 rain : ℚ) (soil : Option ℚ),
      compute_irrigation_mm crop t et0 rain soil
        = round1 (claim_soil_factor soil * max 0 (claim_kc crop * et0 - rain)))
    ∧ ∀ t : ℚ, compute_irrigation_mm (some "rice") t 5 0 (some 45) = 3.3 := by
  have h1 : ∀ (crop : Option String) (t et0 rain : ℚ) (soil : Option ℚ),
      compute_irrigation_mm crop t et0 rain soil
        = round1 (claim_soil_factor soil * max 0 (claim_kc crop * et0 - rain)) := by
    intro crop t et0 rain soil
    unfold compute_irrigation_mm claim_soil_factor claim_kc
    cases soil with
    | none => simp
    | some s =>
      simp only []
      split_ifs <;> rw [mul_comm] <;> try rw [one_mul]
  refine ⟨h1, fun t => ?_⟩
  rw [h1]
  have hk : claim_kc (some "rice") = 1.1 := by
    have hs : strTrim (strToLower "rice") = "rice" := by decide
    unfold claim_kc
    simp [hs]
  have hf : claim_soil_factor (some 45) = 0.6 := by
    unfold claim_soil_factor
    norm_num
  rw [hk, hf]
  rw [show (1.1 * 5 - 0 : ℚ) = 5.5 by norm_num]
  rw [max_eq_right (by norm_num : (0 : ℚ) ≤ 5.5)]
  norm_num [round1, roundHalfEven]

/-! ## C2: deficit-over-period advice -/

/-- C2 counterexample.  The claim says the deficit for crop `"wheat"`
(asserted crop coefficient 0.7), `et0 = 5`, `days = 5`, `rain = 1` is
`16.5`; the code uses the fixed coefficient `0.9` and no crop-dependent
lookup at all, so the deficit at those inputs is `21.5 ≠ 16.5`. -/
theorem advice_deficit_not_16_5 :
    advice_net_deficit 5 1 5 = 21.5 ∧ advice_net_deficit 5 1 5 ≠ 16.5 := by
  have h : advice_net_deficit 5 1 5 = 21.5 := by
    have expand : advice_net_deficit 5 1 5 = max 0 ((5 : ℚ) * 0.9 * ((5 : ℕ) : ℚ) - 1) := rfl
    rw [expand]
    rw [show ((5 : ℚ) * 0.9 * ((5 : ℕ) : ℚ) - 1 : ℚ) = 21.5 by push_cast; norm_num]
    exact max_eq_right (by norm_num)
  exact ⟨h, by rw [h]; norm_num⟩

/-- C2 (amended).  In the deficit-over-period mode the net deficit is
`max(0, et0 * 0.9 * days_since_irrigation - rain)` — the coefficient is the
fixed constant `0.9`, not a crop lookup — and the tier is Normal below
10 mm, Drying in `[10, 25)`, Critical at ≥ 25 mm, the Drying and Critical
messages carrying the deficit rounded to one decimal in both English and
Urdu; at `et0 = 5`, `days = 5`, `rain = 1` the deficit is `21.5`, the tier
is Drying and the messages contain `"21.5"`. -/
theorem advice_deficit_period :
    (∀ (et0 rain : ℚ) (days : ℕ),
      advice_net_deficit et0 rain days = max 0 (et0 * 0.9 * days - rain))
    ∧ (∀ d : ℚ, d < 10 → advice_tier d = .Normal)
    ∧ (∀ d : ℚ, 10 ≤ d → d < 25 →
        advice_tier d = .Drying
        ∧ strContains (advice_messages d).1 (fmt1 d)
        ∧ strContains (advice_messages d).2 (fmt1 d))
    ∧ (∀ d : ℚ, 25 ≤ d →
        advice_tier d = .Critical
        ∧ strContains (advice_messages d).1 (fmt1 d)
        ∧ strContains (advice_messages d).2 (fmt1 d))
    ∧ advice_net_deficit 5 1 5 = 21.5
    ∧ advice_tier (advice_net_deficit 5 1 5) = .Drying
    ∧ strContains (advice_messages (advice_net_deficit 5 1 5)).1 "21.5"
    ∧ strContains (advice_messages (advice_net_deficit 5 1 5)).2 "21.5" := by
  have hdry : ∀ d : ℚ, 10 ≤ d → d < 25 →
      advice_tier d = .Drying
      ∧ strContains (advice_messages d).1 (fmt1 d)
      ∧ strContains (advice_messages d).2 (fmt1 d) := by
    intro d h10 h25
    have hn : ¬ d < 10 := not_lt.mpr h10
    refine ⟨?_, ?_, ?_⟩
    · unfold advice_tier
      rw [if_neg hn, if_pos h25]
    · unfold advice_messages
      rw [if_neg hn, if_pos h25]
      exact strContains_mid _ _ _
    · unfold advice_messages
      rw [if_neg hn, if_pos h25]
      exact strContains_mid _ _ _
  have hval : advice_net_deficit 5 1 5 = 21.5 := by
    have expand : advice_net_deficit 5 1 5 = max 0 ((5 : ℚ) * 0.9 * ((5 : ℕ) : ℚ) - 1) := rfl
    rw [expand]
    rw [show ((5 : ℚ) * 0.9 * ((5 : ℕ) : ℚ) - 1 : ℚ) = 21.5 by push_cast; norm_num]
    exact max_eq_right (by norm_num)
  have hconc := hdry 21.5 (by norm_num) (by norm_num)
  refine ⟨?_, ?_, hdry, ?_, hval, ?_, ?_, ?_⟩
  · intro et0 rain days
    unfold advice_net_deficit
    rfl
  · intro d h
    unfold advice_tier
    rw [if_pos h]
  · intro d h25
    have hn10 : ¬ d < 10 := not_lt.mpr (le_trans (by norm_num) h25)
    have hn25 : ¬ d < 25 := not_lt.mpr h25
    refine ⟨?_, ?_, ?_⟩
    · unfold advice_tier
      rw [if_neg hn10, if_neg hn25]
    · unfold advice_messages
      rw [if_neg hn10, if_neg hn25]
      exact strContains_mid _ _ _
    · unfold advice_messages
      rw [if_neg hn10, if_neg hn25]
      exact strContains_mid _ _ _
  · rw [hval]
    exact hconc.1
  · rw [hval]
    rw [← fmt1_21_5]
    exact hconc.2.1
  · rw [hval]
    rw [← fmt1_21_5]
    exact hconc.2.2

/-- C2 witness: the amended theorem applied at the deficit `16.5` of the
claim's own example. -/
theorem advice_deficit_period_witness :
    advice_tier 16.5 = .Drying
    ∧ strContains (advice_messages (16.5 : ℚ)).1 (fmt1 16.5)
    ∧ strContains (advice_messages (16.5 : ℚ)).2 (fmt1 16.5) :=
  advice_deficit_period.2.2.1 16.5 (by norm_num) (by norm_num)

/-! ## Geometry lemmas -/

/-- The mean latitude is invariant under reversing the vertex order. -/
theorem latOrigin_reverse (ps : List (ℝ × ℝ)) : latOrigin ps.reverse = latOrigin ps := by
  unfold latOrigin
  rw [List.map_reverse, List.sum_reverse, List.length_reverse]

/-- The mean longitude is invariant under reversing the vertex order. -/
theorem lonOrigin_reverse (ps : List (ℝ × ℝ)) : lonOrigin ps.reverse = lonOrigin ps := by
  unfold lonOrigin
  rw [List.map_reverse, List.sum_reverse, List.length_reverse]

/-- Projecting the reversed ring gives the reversed projected ring. -/
theorem xyOf_reverse (ps : List (ℝ × ℝ)) : xyOf ps.reverse = (xyOf ps).reverse := by
  unfold xyOf
  rw [latOrigin_reverse, lonOrigin_reverse, List.map_reverse]

/-- Appending one vertex adds one cross term with the previous last vertex. -/
theorem shoelaceA2_concat (l : List (ℝ × ℝ)) (b a : ℝ × ℝ) (h : l.getLast? = some b) :
    shoelaceA2 (l ++ [a]) = shoelaceA2 l + crossP b a := by
  induction l with
  | nil => simp at h
  | cons x t ih =>
    cases t with
    | nil =>
      simp only [List.getLast?_singleton, Option.some.injEq] at h
      subst h
      simp [shoelaceA2]
    | cons y r =>
      have h' : (y :: r).getLast? = some b := by
        rw [← h]
        exact List.getLast?_cons_cons.symm
      have step : shoelaceA2 ((x :: y :: r) ++ [a])
          = crossP x y + shoelaceA2 ((y :: r) ++ [a]) := rfl
      rw [step, ih h']
      show crossP x y + (shoelaceA2 (y :: r) + crossP b a)
        = crossP x y + shoelaceA2 (y :: r) + crossP b a
      ring

/-- Reversing the ring negates the signed shoelace accumulator. -/
theorem shoelaceA2_reverse (l : List (ℝ × ℝ)) : shoelaceA2 l.reverse = -shoelaceA2 l := by
  induction l with
  | nil => simp [shoelaceA2]
  | cons x t ih =>
    cases t with
    | nil => simp [shoelaceA2]
    | cons y r =>
      have hlast : (y :: r).reverse.getLast? = some y := by
        rw [List.getLast?_reverse]
        rfl
      rw [List.reverse_cons, shoelaceA2_concat _ y x hlast, ih]
      show -shoelaceA2 (y :: r) + crossP y x = -(crossP x y + shoelaceA2 (y :: r))
      unfold crossP
      ring

/-! ## C3: `_centroid_and_area` formula and winding invariance -/

/-- C3.  `_centroid_and_area` computes exactly the specification's
projection/shoelace pipeline (mean origin, scale factors 111132 and
111320·cos(lat₀ in radians), signed shoelace centroid and area, areas
`|signed area| / 10000` and `|signed area| / 4046.8564224`), and the area
magnitudes are invariant under reversing the winding order of the ring. -/
theorem centroid_and_area_matches_claim :
    ∀ ps : List (ℝ × ℝ),
      centroid_and_area ps = centroid_and_area_claim ps
      ∧ (centroid_and_area ps.reverse).2.2.1 = (centroid_and_area ps).2.2.1
      ∧ (centroid_and_area ps.reverse).2.2.2 = (centroid_and_area ps).2.2.2 := by
  intro ps
  have habs : ∀ x : ℝ, |x / 2| = |x| / 2 := fun x => by
    rw [abs_div, abs_two]
  have hA2 : shoelaceA2 (xyOf ps.reverse) = -shoelaceA2 (xyOf ps) := by
    rw [xyOf_reverse, shoelaceA2_reverse]
  refine ⟨?_, ?_, ?_⟩
  · simp only [centroid_and_area, centroid_and_area_claim, latOrigin, lonOrigin, xyOf,
      mPerDegLat, mPerDegLon, habs]
  · simp only [centroid_and_area]
    rw [hA2, abs_neg]
  · simp only [centroid_and_area]
    rw [hA2, abs_neg]

/-! ## C4: degenerate rings -/

/-- C4.  When the signed shoelace accumulator is exactly zero,
`_centroid_and_area` returns zero area and the projection origin as the
centroid (no division by zero); in particular a ring whose vertices are
all identical yields area 0 and that very point as centroid. -/
theorem centroid_and_area_degenerate :
    (∀ ps : List (ℝ × ℝ), shoelaceA2 (xyOf ps) = 0 →
      centroid_and_area ps = (latOrigin ps, lonOrigin ps, 0, 0))
    ∧ ∀ (lon lat : ℝ) (n : ℕ), 1 ≤ n →
      centroid_and_area (List.replicate n (lon, lat)) = (lat, lon, 0, 0) := by
  have h1 : ∀ ps : List (ℝ × ℝ), shoelaceA2 (xyOf ps) = 0 →
      centroid_and_area ps = (latOrigin ps, lonOrigin ps, 0, 0) := by
    intro ps hz
    simp only [centroid_and_area]
    rw [hz]
    simp
  have hrep : ∀ (c : ℝ × ℝ) (n : ℕ), shoelaceA2 (List.replicate n c) = 0 := by
    intro c n
    induction n with
    | zero => simp [shoelaceA2]
    | succ k ih =>
      cases k with
      | zero => simp [shoelaceA2]
      | succ m =>
        rw [List.replicate_succ, List.replicate_succ]
        show crossP c c + shoelaceA2 (c :: List.replicate m c) = 0
        have hcc : crossP c c = 0 := by
          unfold crossP
          ring
        rw [hcc, ← List.replicate_succ, ih, add_zero]
  have hlat : ∀ (lon lat : ℝ) (n : ℕ), 1 ≤ n →
      latOrigin (List.replicate n (lon, lat)) = lat := by
    intro lon lat n hn
    have hne : (n : ℝ) ≠ 0 := Nat.cast_ne_zero.mpr (by omega)
    unfold latOrigin
    rw [List.map_replicate, List.sum_replicate, List.length_replicate, nsmul_eq_mul]
    field_simp
  have hlon : ∀ (lon lat : ℝ) (n : ℕ), 1 ≤ n →
      lonOrigin (List.replicate n (lon, lat)) = lon := by
    intro lon lat n hn
    have hne : (n : ℝ) ≠ 0 := Nat.cast_ne_zero.mpr (by omega)
    unfold lonOrigin
    rw [List.map_replicate, List.sum_replicate, List.length_replicate, nsmul_eq_mul]
    field_simp
  refine ⟨h1, ?_⟩
  intro lon lat n hn
  have hz : shoelaceA2 (xyOf (List.replicate n (lon, lat))) = 0 := by
    unfold xyOf
    rw [List.map_replicate, hlat _ _ _ hn, hlon _ _ _ hn]
    simp only [sub_self, zero_mul]
    exact hrep _ n
  rw [h1 _ hz, hlat _ _ _ hn, hlon _ _ _ hn]

/-- C4 witness: a perfectly degenerate three-vertex ring at the origin. -/
theorem centroid_and_area_degenerate_witness :
    centroid_and_area (List.replicate 3 ((0 : ℝ), (0 : ℝ))) = (0, 0, 0, 0) :=
  centroid_and_area_degenerate.2 0 0 3 (by norm_num)

/-! ## C5: `_close_ring` -/

/-- C5.  `_close_ring` is idempotent, leaves any list whose first and last
vertices agree (including the empty list) unchanged, and appends a copy of
the first vertex exactly when the first and last vertices differ. -/
theorem close_ring_spec :
    ∀ v : List (ℚ × ℚ),
      close_ring (close_ring v) = close_ring v
      ∧ (v.head? = v.getLast? → close_ring v = v)
      ∧ ∀ a, v.head? = some a → v.getLast? ≠ some a → close_ring v = v ++ [a] := by
  have hcons : ∀ (x : ℚ × ℚ) (t : List (ℚ × ℚ)) (l : ℚ × ℚ), (x :: t).getLast? = some l →
      close_ring (x :: t) = if x ≠ l then (x :: t) ++ [x] else (x :: t) := by
    intro x t l hl
    unfold close_ring
    rw [List.head?_cons, hl]
  intro v
  cases v with
  | nil => refine ⟨rfl, fun _ => rfl, fun a ha _ => by simp at ha⟩
  | cons x t =>
    obtain ⟨l, hl⟩ : ∃ l, (x :: t).getLast? = some l := by
      cases h : (x :: t).getLast? with
      | none => exact absurd (List.getLast?_eq_none_iff.mp h) (List.cons_ne_nil x t)
      | some y => exact ⟨y, rfl⟩
    refine ⟨?_, ?_, ?_⟩
    · by_cases hxl : x = l
      · rw [hcons x t l hl, if_neg (by simp [hxl])]
        rw [hcons x t l hl, if_neg (by simp [hxl])]
      · rw [hcons x t l hl, if_pos hxl]
        have hh : ((x :: t) ++ [x]).getLast? = some x := List.getLast?_concat _
        have hh2 : (x :: (t ++ [x])).getLast? = some x := by
          rw [← List.cons_append]
          exact hh
        rw [List.cons_append, hcons x (t ++ [x]) x hh2, if_neg (by simp)]
    · intro heq
      rw [List.head?_cons, hl] at heq
      have hxl : x = l := Option.some.inj heq
      rw [hcons x t l hl, if_neg (by simp [hxl])]
    · intro a ha hne
      rw [List.head?_cons] at ha
      have hxa : x = a := Option.some.inj ha
      rw [hl] at hne
      have hla : l ≠ a := fun h => hne (by rw [h])
      rw [hcons x t l hl, if_pos (by rw [hxa]; exact fun h => hla h.symm)]
      rw [hxa]

/-- C5 witness: an open two-vertex list gets its first vertex appended. -/
theorem close_ring_spec_witness :
    close_ring [((0 : ℚ), (0 : ℚ)), (1, 1)] = [((0 : ℚ), (0 : ℚ)), (1, 1), (0, 0)] :=
  (close_ring_spec _).2.2 (0, 0) rfl (by simp)

/-! ## C6: `compute_indices` -/

/-- Dropping the `none`s of a mapped list is `filterMap`. -/
theorem filterMap_id_map (g : Px → Option ℚ) (l : List Px) :
    (l.map g).filterMap id = l.filterMap g := by
  induction l with
  | nil => rfl
  | cons a t ih =>
    rw [List.map_cons, List.filterMap_cons, List.filterMap_cons]
    cases g a <;> simp [ih]

/-- Filtering before a `filterMap` is a conditional `filterMap`. -/
theorem filter_filterMap (q : Px → Bool) (f : Px → Option ℚ) (l : List Px) :
    (l.filter q).filterMap f = l.filterMap fun p => if q p then f p else none := by
  induction l with
  | nil => rfl
  | cons a t ih =>
    rw [List.filter_cons, List.filterMap_cons]
    by_cases hq : q a
    · rw [if_pos hq, List.filterMap_cons, ih]
      simp [hq]
    · rw [if_neg hq, ih]
      simp [hq]

/-- Cloud-masking then applying a per-pixel index and dropping invalid
values is the same as restricting to the non-masked pixels first, provided
the index is invalid on a pixel whose bands were all invalidated. -/
theorem mask_filterMap (f : Px → Option ℚ)
    (hmasked : ∀ p : Px, f { p with red := none, nir := none, swir := none } = none) :
    ∀ img : List Px, ((img.map maskClouds).map f).filterMap id = validPixelValues f img := by
  intro img
  have hfun : (fun p => f (maskClouds p))
      = fun p => if decide (p.scl ∉ SCL_MASK) then f p else none := by
    funext p
    by_cases hm : p.scl ∈ SCL_MASK
    · simp [maskClouds, hm, hmasked p]
    · simp [maskClouds, hm]
  rw [filterMap_id_map, List.filterMap_map]
  unfold validPixelValues
  rw [filter_filterMap]
  rw [show (f ∘ maskClouds) = fun p => f (maskClouds p) from rfl, hfun]

/-- C6.  `compute_indices` aggregates each index as the arithmetic mean
over the valid (non-cloud-masked, band-valid) pixels only — masked pixels
are removed, not zeroed — and when no valid pixel remains the result field
is `none` (never `some 0`); in particular an all-masked AOI yields
`(none, none)` for the two indices. -/
theorem compute_indices_valid_mean :
    (∀ img : List Px,
      compute_indices img = (meanOfValid ndviPx img, meanOfValid ndwiPx img))
    ∧ ∀ img : List Px, (∀ p ∈ img, p.scl ∈ SCL_MASK) → compute_indices img = (none, none) := by
  have hnv : ∀ p : Px, ndviPx { p with red := none, nir := none, swir := none } = none := by
    intro p
    rfl
  have hnw : ∀ p : Px, ndwiPx { p with red := none, nir := none, swir := none } = none := by
    intro p
    rfl
  have h1 : ∀ img : List Px,
      compute_indices img = (meanOfValid ndviPx img, meanOfValid ndwiPx img) := by
    intro img
    simp only [compute_indices, nanmean, meanOfValid]
    rw [mask_filterMap ndviPx hnv img, mask_filterMap ndwiPx hnw img]
  refine ⟨h1, ?_⟩
  intro img hall
  rw [h1 img]
  have hfil : img.filter (fun p => decide (p.scl ∉ SCL_MASK)) = [] := by
    rw [List.filter_eq_nil_iff]
    intro p hp
    simp [hall p hp]
  have hv : ∀ f : Px → Option ℚ, validPixelValues f img = [] := by
    intro f
    unfold validPixelValues
    rw [hfil]
    rfl
  simp [meanOfValid, hv]

/-- C6 witness: a one-pixel AOI whose pixel is high-probability cloud
(class 9) yields `(none, none)`. -/
theorem compute_indices_valid_mean_witness :
    compute_indices [⟨some 1, some 2, some 3, 9⟩] = (none, none) :=
  compute_indices_valid_mean.2 _ (by simp [SCL_MASK])

/-! ## C7: weather aggregation and the ET0 proxy -/

/-- C7 counterexample.  With eight forecast steps at −9.649 °C the code
first rounds the mean to −9.6 and feeds the rounded value to the ET0
formula, producing 0.5 mm, while the claimed
`round1(max(0, 0.0023·(mean+17.8))·24)` on the unrounded mean gives
0.4 mm. -/
theorem weather_et0_from_rounded_mean :
    (weather_from_steps (List.replicate 8 ((-9.649 : ℚ), 0))).2.2 = 0.5
    ∧ round1 (max 0 (0.0023 * ((-9.649 : ℚ) + 17.8)) * 24) = 0.4
    ∧ (0.5 : ℚ) ≠ 0.4 := by
  have hmax : ∀ x : ℚ, 0 ≤ x → max 0 x = x := fun x hx => max_eq_right hx
  refine ⟨?_, ?_, by norm_num⟩
  · have hs : (List.replicate 8 ((-9.649 : ℚ), (0 : ℚ))).take 8
        = List.replicate 8 ((-9.649 : ℚ), (0 : ℚ)) := by
      simp [List.take_replicate]
    have hmean : ((List.replicate 8 ((-9.649 : ℚ), (0 : ℚ))).map Prod.fst).sum
        / (((List.replicate 8 ((-9.649 : ℚ), (0 : ℚ))).map Prod.fst).length : ℚ)
        = -9.649 := by
      rw [List.map_replicate, List.sum_replicate, List.length_replicate, nsmul_eq_mul]
      norm_num
    have htc : round1 ((-9.649 : ℚ)) = -9.6 := by
      norm_num [round1, roundHalfEven]
    simp only [weather_from_steps, hs]
    rw [if_pos (by simp), hmean, htc]
    rw [hmax (0.0023 * ((-9.6 : ℚ) + 17.8)) (by norm_num)]
    norm_num [round1, roundHalfEven]
  · rw [hmax (0.0023 * ((-9.649 : ℚ) + 17.8)) (by norm_num)]
    norm_num [round1, roundHalfEven]

/-- C7 (amended).  The estimator aggregates the first 8 forecast steps
(mean temperature, summed rainfall) and computes
`et0_mm = round1(max(0, 0.0023 * (temp_c + 17.8)) * 24)` where `temp_c`
is the mean temperature *already rounded to one decimal* — the rounding
happens before the ET0 formula, not only at the output boundary. -/
theorem weather_from_steps_spec :
    ∀ steps : List (ℚ × ℚ), steps ≠ [] →
      weather_from_steps steps = weather_from_steps (steps.take 8)
      ∧ weather_from_steps steps =
        (round1 (((steps.take 8).map Prod.fst).sum
            / ((((steps.take 8).map Prod.fst).length : ℚ))),
         round1 ((steps.take 8).map Prod.snd).sum,
         round1 (max 0 (0.0023 *
           (round1 (((steps.take 8).map Prod.fst).sum
              / ((((steps.take 8).map Prod.fst).length : ℚ))) + 17.8)) * 24)) := by
  intro steps hne
  have hlen : ((steps.take 8).map Prod.fst).length ≠ 0 := by
    have hpos : 0 < steps.length := List.length_pos.mpr hne
    simp only [List.length_map, List.length_take]
    omega
  constructor
  · simp only [weather_from_steps, List.take_take, min_self]
  · simp only [weather_from_steps]
    rw [if_pos hlen]

/-- C7 witness: the amended theorem applied to a one-step forecast. -/
theorem weather_from_steps_spec_witness :
    weather_from_steps [((20 : ℚ), (1 : ℚ))]
      = weather_from_steps ([((20 : ℚ), (1 : ℚ))].take 8) :=
  (weather_from_steps_spec [((20 : ℚ), (1 : ℚ))] (by simp)).1

/-! ## C8: weather failure semantics -/

/-- C8 counterexample.  When the forecast source is unreachable (the
request raises / `raise_for_status()` fires) the function propagates the
error instead of falling back to 30 °C — no `WeatherSnapshot` is
returned. -/
theorem weather_unreachable_raises :
    fetch_weather_et0 true (Except.error ()) = Except.error () := rfl

/-- C8 (amended).  The 30 °C default applies only when the forecast call
succeeds but contains no usable steps — the snapshot is then
`(30.0, 0.0, 2.6)`; an unreachable source or HTTP error propagates as an
exception, and an unset API key raises before any request is made. -/
theorem weather_fallback_semantics :
    fetch_weather_et0 true (Except.ok []) = Except.ok (30, 0, 2.6)
    ∧ fetch_weather_et0 true (Except.error ()) = Except.error ()
    ∧ ∀ resp : Except Unit (List (ℚ × ℚ)), fetch_weather_et0 false resp = Except.error () := by
  refine ⟨?_, rfl, fun resp => rfl⟩
  have hcore : weather_from_steps ([] : List (ℚ × ℚ)) = (30, 0, 2.6) := by
    simp only [weather_from_steps, List.take_nil, List.map_nil]
    rw [if_neg (by simp)]
    have h0 : round1 (([] : List ℚ).sum) = 0 := by
      norm_num [round1, roundHalfEven]
    have het : round1 (max 0 (0.0023 * ((30 : ℚ) + 17.8)) * 24) = 2.6 := by
      rw [max_eq_right (by norm_num : (0 : ℚ) ≤ 0.0023 * ((30 : ℚ) + 17.8))]
      norm_num [round1, roundHalfEven]
    rw [h0, het]
  show Except.ok (weather_from_steps ([] : List (ℚ × ℚ))) = Except.ok (30, 0, 2.6)
  rw [hcore]

/-! ## C9: `select_item` -/

/-- Taking a positive-length head keeps the head. -/
theorem head?_take5 (l : List SceneItem) : (l.take 5).head? = l.head? := by
  cases l <;> rfl

/-- The Boolean filter agrees with the query predicate. -/
theorem scenePassesB_iff (today daysBack : ℤ) (maxCloud : ℚ) (it : SceneItem) :
    scenePassesB today daysBack maxCloud it = true ↔ scenePasses today daysBack maxCloud it := by
  simp [scenePassesB, scenePasses, and_assoc]

/-- C9.  `select_item` returns the most recent catalog item among those
intersecting the polygon, acquired within `[today - days_back, today]` and
with cloud cover strictly below `max_cloud_pct`; when no item passes the
filters it returns `none`, a valid no-data outcome. -/
theorem select_item_spec :
    ∀ (pool : List SceneItem) (today daysBack : ℤ) (maxCloud : ℚ),
      (select_item pool today daysBack maxCloud = none →
        ∀ it ∈ pool, ¬ scenePasses today daysBack maxCloud it)
      ∧ ∀ it : SceneItem, select_item pool today daysBack maxCloud = some it →
          it ∈ pool ∧ scenePasses today daysBack maxCloud it
          ∧ ∀ j ∈ pool, scenePasses today daysBack maxCloud j → j.dt ≤ it.dt := by
  intro pool today daysBack maxCloud
  have hsel : select_item pool today daysBack maxCloud
      = ((pool.filter (scenePassesB today daysBack maxCloud)).insertionSort byDateDesc).head? := by
    unfold select_item catalogSearch
    exact head?_take5 _
  constructor
  · intro hnone it hit hpass
    rw [hsel] at hnone
    have hnil : (pool.filter (scenePassesB today daysBack maxCloud)).insertionSort byDateDesc
        = [] := List.head?_eq_none_iff.mp hnone
    have hmem : it ∈ (pool.filter (scenePassesB today daysBack maxCloud)).insertionSort
        byDateDesc := by
      rw [List.mem_insertionSort]
      exact List.mem_filter.mpr ⟨hit, (scenePassesB_iff today daysBack maxCloud it).mpr hpass⟩
    rw [hnil] at hmem
    exact absurd hmem (List.not_mem_nil it)
  · intro it hsome
    rw [hsel] at hsome
    cases hS : (pool.filter (scenePassesB today daysBack maxCloud)).insertionSort byDateDesc with
    | nil =>
      rw [hS] at hsome
      exact absurd hsome (by simp)
    | cons a rest =>
      rw [hS] at hsome
      have hai : a = it := by
        simpa using hsome
      subst hai
      have hmemF : a ∈ pool.filter (scenePassesB today daysBack maxCloud) := by
        rw [← List.mem_insertionSort (r := byDateDesc), hS]
        exact List.mem_cons_self a rest
      have h1 := List.mem_filter.mp hmemF
      refine ⟨h1.1, (scenePassesB_iff today daysBack maxCloud a).mp h1.2, ?_⟩
      intro j hj hpj
      have hjS : j ∈ (pool.filter (scenePassesB today daysBack maxCloud)).insertionSort
          byDateDesc := by
        rw [List.mem_insertionSort]
        exact List.mem_filter.mpr ⟨hj, (scenePassesB_iff today daysBack maxCloud j).mpr hpj⟩
      rw [hS] at hjS
      rcases List.mem_cons.mp hjS with hje | hjr
      · rw [hje]
      · have hsorted := List.sorted_insertionSort byDateDesc
          (pool.filter (scenePassesB today daysBack maxCloud))
        rw [hS] at hsorted
        exact List.rel_of_sorted_cons hsorted j hjr

/-- C9 witness: a two-item catalog where the later acquisition is picked. -/
theorem select_item_spec_witness :
    (⟨20, 5, true, "B"⟩ : SceneItem)
        ∈ ([⟨10, 5, true, "A"⟩, ⟨20, 5, true, "B"⟩] : List SceneItem)
    ∧ scenePasses 25 30 40 (⟨20, 5, true, "B"⟩ : SceneItem) := by
  have hA : scenePassesB 25 30 40 (⟨10, 5, true, "A"⟩ : SceneItem) = true := by
    simp [scenePassesB]
    norm_num
  have hB : scenePassesB 25 30 40 (⟨20, 5, true, "B"⟩ : SceneItem) = true := by
    simp [scenePassesB]
    norm_num
  have hfilter : List.filter (scenePassesB 25 30 40)
      ([⟨10, 5, true, "A"⟩, ⟨20, 5, true, "B"⟩] : List SceneItem)
      = [⟨10, 5, true, "A"⟩, ⟨20, 5, true, "B"⟩] := by
    simp [List.filter_cons, hA, hB]
  have horder : List.insertionSort byDateDesc
      ([⟨10, 5, true, "A"⟩, ⟨20, 5, true, "B"⟩] : List SceneItem)
      = [⟨20, 5, true, "B"⟩, ⟨10, 5, true, "A"⟩] := by
    show List.orderedInsert byDateDesc ⟨10, 5, true, "A"⟩
        (List.orderedInsert byDateDesc ⟨20, 5, true, "B"⟩ []) = _
    show List.orderedInsert byDateDesc ⟨10, 5, true, "A"⟩ [⟨20, 5, true, "B"⟩] = _
    rw [List.orderedInsert]
    rw [if_neg (by norm_num [byDateDesc])]
    rfl
  have hsel : select_item ([⟨10, 5, true, "A"⟩, ⟨20, 5, true, "B"⟩] : List SceneItem) 25 30 40
      = some ⟨20, 5, true, "B"⟩ := by
    unfold select_item catalogSearch
    rw [hfilter, horder]
    rfl
  have h := (select_item_spec [⟨10, 5, true, "A"⟩, ⟨20, 5, true, "B"⟩] 25 30 40).2
    ⟨20, 5, true, "B"⟩ hsel
  exact ⟨h.1, h.2.1⟩

/-! ## C10: `fetch_satellite_soil_moisture` -/

/-- C10.  The soil-moisture fetch returns `none` or a value within
`[0, 60]`: transport errors and non-200 statuses give `none`, and any
derived percentage outside the range is discarded as `none`; no error
propagates to the caller. -/
theorem soil_moisture_bounded :
    (∀ (resp : Except Unit (ℕ × List (String × ℚ))) (v : ℚ),
      fetch_satellite_soil_moisture resp = some v → 0 ≤ v ∧ v ≤ 60)
    ∧ fetch_satellite_soil_moisture (Except.error ()) = none
    ∧ ∀ (status : ℕ) (vals : List (String × ℚ)), status ≠ 200 →
        fetch_satellite_soil_moisture (Except.ok (status, vals)) = none := by
  refine ⟨?_, rfl, ?_⟩
  · intro resp v h
    rcases resp with e | ⟨status, vals⟩
    · simp [fetch_satellite_soil_moisture] at h
    · simp only [fetch_satellite_soil_moisture] at h
      split at h
      · exact absurd h (by simp)
      · split at h
        · exact absurd h (by simp)
        · rename_i dayKey hkey
          split at h
          · exact absurd h (by simp)
          · rename_i sm hlook
            have h2 : (if round1 (sm / 10) < 0 ∨ round1 (sm / 10) > 60 then none
                else some (round1 (sm / 10))) = some v := h
            by_cases hr : round1 (sm / 10) < 0 ∨ round1 (sm / 10) > 60
            · rw [if_pos hr] at h2
              exact absurd h2 (by simp)
            · rw [if_neg hr] at h2
              push_neg at hr
              have hv : round1 (sm / 10) = v := Option.some.inj h2
              rw [← hv]
              exact ⟨hr.1, hr.2⟩
  · intro status vals hst
    simp only [fetch_satellite_soil_moisture]
    rw [if_pos hst]

/-- C10 witness: a 200 response carrying 350 kg/m² yields 35 %, inside
the admissible range. -/
theorem soil_moisture_bounded_witness : (0 : ℚ) ≤ 35 ∧ (35 : ℚ) ≤ 60 :=
  soil_moisture_bounded.1 (Except.ok (200, [("20250101", 350)])) 35 (by
    simp only [fetch_satellite_soil_moisture]
    rw [if_neg (by norm_num)]
    norm_num [List.insertionSort, List.orderedInsert, List.lookup, round1, roundHalfEven])

end Agri
